import Mathlib

set_option autoImplicit false

/-!
Verification development for `patsy/categorical.py`: the categorical
level-sniffing and integer-encoding subsystem.  Python values that can occur
as categorical data are shallowly embedded as `Value`; the dispatch on the
runtime type of the data (`pandas.Categorical` vs `_CategoricalBox` vs
boolean ndarray vs plain sequence vs scalar) is embedded as the inductive
`CatData`/`RawData`; `PatsyError` and the uncaught Python exceptions are
embedded as `PErr`.
-/

/-- A Python value appearing as categorical data: booleans, text, the `None`
and NaN missing-value markers, and `dict` standing for an unhashable object
such as `{}`.  Equality is Python `==` on this fragment.  (Numeric values and
the `bool`/`int` cross-type equalities of Python are outside the fragment the
claims mention.) -/
inductive Value where
  | bool (b : Bool)
  | str (s : String)
  | vnone
  | nan
  | dict
deriving DecidableEq

/-- Python hashability on the embedded fragment: everything but `dict`. -/
def hashable : Value → Bool
  | Value.dict => false
  | _ => true

/-- The contrast payload is opaque to this subsystem (`categorical.py` only
stores and forwards it), so it is embedded as a plain string. -/
abbrev Contrast := String

/-- Failure outcomes of the subsystem.  The first four are `PatsyError`s
distinguished by their message (`InvalidShape`, `HashError`, `LevelMismatch`,
`UnknownLevel` in the spec's taxonomy); `keyError` is an uncaught Python
`KeyError` escaping from `categorical_to_int`'s boolean fast-path guard
(`level_to_int[False]`), which is not a `PatsyError` at all. -/
inductive PErr where
  | invalidShape
  | hashError
  | levelMismatch (expected got : List Value)
  | unknownLevel (v : Value) (preview : List (Option Value))
  | keyError
deriving DecidableEq

/-- Un-boxed data as `categorical.py` distinguishes it at runtime.
`boolArr extra bs` is a NumPy array of dtype `bool_` with `ndim = 1 + extra`
(zero-dimensional arrays are outside the model); for `extra > 0` the boolean
values are listed in row-major order, only their presence matters.
`arr extra vs` is a non-boolean ndarray with `ndim = 1 + extra`;
`lst vs` is a plain Python list (no `ndim`/`dtype` attributes);
`scalar v` is a bare non-iterable scalar or a text value. -/
inductive RawData where
  | boolArr (extra : Nat) (bs : List Bool)
  | arr (extra : Nat) (vs : List Value)
  | lst (vs : List Value)
  | scalar (v : Value)
deriving DecidableEq

/-- `_CategoricalBox`: raw data tagged with optional contrast and levels. -/
structure BoxData where
  data : RawData
  contrast : Option Contrast
  levels : Option (List Value)
deriving DecidableEq

/-- Data as received by `sniff` and `categorical_to_int`: a
`pandas.Categorical` (authoritative `levels` plus integer `labels` with `-1`
for missing), a `_CategoricalBox`, or raw data. -/
inductive CatData where
  | cat (levels : List Value) (labels : List Int)
  | box (b : BoxData)
  | raw (r : RawData)
deriving DecidableEq

/-- Argument-defaulting used by `C`: a caller-supplied (non-`None`) value
wins, otherwise the value inherited from the unwrapped box is kept. -/
def pick {α : Type} (caller inherited : Option α) : Option α :=
  match caller with
  | some x => some x
  | none => inherited

/-- Data that can be passed to `C`: either raw data or an existing box
(`C` applied to a `pandas.Categorical` is outside the model). -/
inductive Boxable where
  | raw (r : RawData)
  | box (b : BoxData)
deriving DecidableEq

/-- The `C` builtin (`categorical.py` lines 56-94): unwrap an already-boxed
argument, default each of `contrast`/`levels` from the inner box when the
caller supplies `None`, and box the result. -/
def C (data : Boxable) (contrast : Option Contrast) (levels : Option (List Value)) :
    BoxData :=
  match data with
  | Boxable.box b => ⟨b.data, pick contrast b.contrast, pick levels b.levels⟩
  | Boxable.raw r => ⟨r, contrast, levels⟩

/-- Lookup in `dict(zip(levels, range(len(levels))))`: the index of the last
occurrence of `v` in `levels` (later duplicate keys overwrite earlier ones). -/
def lookupFrom (v : Value) : List Value → Option Nat
  | [] => none
  | l :: ls =>
    match lookupFrom v ls with
    | some j => some (j + 1)
    | none => if l = v then some 0 else none

/-- The `level_to_int` mapping of `categorical_to_int`. -/
def lookupLevel (levels : List Value) (v : Value) : Option Nat :=
  lookupFrom v levels

/-- The elided preview of expected levels used in the `UnknownLevel` message
(`SHOW_LEVELS = 4`): all levels when there are at most four, else the first
two, an ellipsis (embedded as `none`), and the last two. -/
def levelPreview (levels : List Value) : List (Option Value) :=
  if levels.length ≤ 4 then levels.map some
  else (levels.take 2).map some ++ [none] ++ (levels.drop (levels.length - 2)).map some

/-- `_categorical_shape_fix` (lines 138-150): reject `ndim > 1` with the
`InvalidShape` error, coerce a bare scalar (including text) to a length-one
list, and pass everything else through unchanged. -/
def shapeFixR : RawData → Except PErr RawData
  | RawData.boolArr extra bs =>
    if 0 < extra then Except.error PErr.invalidShape
    else Except.ok (RawData.boolArr extra bs)
  | RawData.arr extra vs =>
    if 0 < extra then Except.error PErr.invalidShape
    else Except.ok (RawData.arr extra vs)
  | RawData.lst vs => Except.ok (RawData.lst vs)
  | RawData.scalar v => Except.ok (RawData.lst [v])

/-- The element sequence obtained by iterating over shape-fixed raw data. -/
def toValues : RawData → List Value
  | RawData.boolArr _ bs => bs.map Value.bool
  | RawData.arr _ vs => vs
  | RawData.lst vs => vs
  | RawData.scalar v => [v]

/-- One step of the general encoding loop (lines 318-343): missing values map
to `-1`; an unhashable value raises `HashError`; a value absent from the
levels raises `UnknownLevel` with the offending value and the elided level
preview; otherwise the code is the value's position in `levels`. -/
def encodeOne (levels : List Value) (na : Value → Bool) (v : Value) : Except PErr Int :=
  if na v then Except.ok (-1)
  else if hashable v then
    match lookupLevel levels v with
    | some i => Except.ok (i : Int)
    | none => Except.error (PErr.unknownLevel v (levelPreview levels))
  else Except.error PErr.hashError

/-- The general per-element encoding loop of `categorical_to_int`. -/
def encodeLoop (levels : List Value) (na : Value → Bool) : List Value → Except PErr (List Int)
  | [] => Except.ok []
  | v :: vs =>
    match encodeOne levels na v with
    | Except.error e => Except.error e
    | Except.ok c =>
      match encodeLoop levels na vs with
      | Except.error e => Except.error e
      | Except.ok cs => Except.ok (c :: cs)

/-- `categorical_to_int` after the `pandas.Categorical`/box dispatch (lines
304-343): shape-fix, build `level_to_int` (raising `HashError` when a level is
unhashable), then either the boolean fast path — whose guard
`level_to_int[False] == 0 and level_to_int[True] == 1` evaluates the two
lookups with Python's short-circuit `and` and lets a `KeyError` escape
uncaught when a boolean is absent — or the general loop. -/
def encodeRaw (r : RawData) (levels : List Value) (na : Value → Bool) :
    Except PErr (List Int) :=
  match shapeFixR r with
  | Except.error e => Except.error e
  | Except.ok r2 =>
    if levels.all hashable then
      match r2 with
      | RawData.boolArr _ bs =>
        match lookupLevel levels (Value.bool false) with
        | none => Except.error PErr.keyError
        | some i =>
          if i = 0 then
            match lookupLevel levels (Value.bool true) with
            | none => Except.error PErr.keyError
            | some j =>
              if j = 1 then Except.ok (bs.map fun b => if b then (1 : Int) else 0)
              else encodeLoop levels na (bs.map Value.bool)
          else encodeLoop levels na (bs.map Value.bool)
      | r3 => encodeLoop levels na (toValues r3)
    else Except.error PErr.hashError

/-- `categorical_to_int` (lines 285-346).  A `pandas.Categorical` must carry
exactly the expected levels (else `LevelMismatch`) and then its own labels are
returned unchanged; a box with explicit levels is checked the same way and
then unwrapped; everything else goes through `encodeRaw`. -/
def categorical_to_int (data : CatData) (levels : List Value) (na : Value → Bool) :
    Except PErr (List Int) :=
  match data with
  | CatData.cat dl labs =>
    if dl = levels then Except.ok labs
    else Except.error (PErr.levelMismatch levels dl)
  | CatData.box b =>
    match b.levels with
    | some dl =>
      if dl = levels then encodeRaw b.data levels na
      else Except.error (PErr.levelMismatch levels dl)
    | none => encodeRaw b.data levels na
  | CatData.raw r => encodeRaw r levels na

/-- The mutable state of a `CategoricalSniffer` (lines 152-158).  The
`NA_action` stored at construction is passed explicitly to `sniff` instead,
since it is never mutated. -/
structure Sniffer where
  contrast : Option Contrast
  levels : Option (List Value)
  levelSet : List Value
deriving DecidableEq

/-- Python `set.add` on the insertion-ordered list embedding of
`_level_set`. -/
def insertVal (s : List Value) (v : Value) : List Value :=
  if v ∈ s then s else s ++ [v]

/-- One element of the sniffing scan (lines 191-202): skip values the NA
policy classifies as missing; a Python boolean registers both `True` and
`False` (`set.update([True, False])`); any other value is added to the level
set, raising `HashError` when unhashable. -/
def scanStep (na : Value → Bool) (s : List Value) (v : Value) : Except PErr (List Value) :=
  if na v then Except.ok s
  else
    match v with
    | Value.bool _ => Except.ok (insertVal (insertVal s (Value.bool true)) (Value.bool false))
    | _ =>
      if hashable v then Except.ok (insertVal s v)
      else Except.error PErr.hashError

/-- The sniffing scan over a whole chunk. -/
def scanAll (na : Value → Bool) : List Value → List Value → Except PErr (List Value)
  | s, [] => Except.ok s
  | s, v :: vs =>
    match scanStep na s v with
    | Except.error e => Except.error e
    | Except.ok s2 => scanAll na s2 vs

/-- The final test of `sniff` (line 205): is the accumulated level set
exactly `{False, True}` as a Python set? -/
def tfSet (s : List Value) : Bool :=
  decide (Value.bool true ∈ s) && decide (Value.bool false ∈ s) &&
    s.all fun v => decide (v = Value.bool true) || decide (v = Value.bool false)

/-- Modelled from the spec: `SortAnythingKey` lives in `patsy/util.py`, which
is not included under `src/`.  Spec section 4.4 asks for a deterministic total
order over mixed values: values are grouped by a representation-category rank
and ordered by the natural order within a category (`False < True` for
booleans, lexicographic order for text). -/
def catRank : Value → Nat
  | Value.bool _ => 0
  | Value.vnone => 1
  | Value.nan => 2
  | Value.str _ => 3
  | Value.dict => 4

/-- Modelled from the spec: the comparison induced by `SortAnythingKey`
(see `catRank`). -/
def valLE : Value → Value → Bool
  | Value.bool a, Value.bool b => !a || b
  | Value.str a, Value.str b => decide (a ≤ b)
  | a, b => decide (catRank a ≤ catRank b)

/-- Insertion into a `valLE`-sorted list. -/
def insertSorted (v : Value) : List Value → List Value
  | [] => [v]
  | w :: ws => if valLE v w then v :: w :: ws else w :: insertSorted v ws

/-- Modelled from the spec: `levels.sort(key=SortAnythingKey)` (line 163),
embedded as insertion sort by `valLE`. -/
def sortLevels (s : List Value) : List Value :=
  s.foldr insertSorted []

/-- `CategoricalSniffer.levels_contrast` (lines 160-165): on the first call
sort the accumulated level set and memoize it in `_levels`; always return the
stored levels paired with the stored contrast.  The memoizing mutation is
made explicit by returning the updated sniffer. -/
def levelsContrast (s : Sniffer) : Sniffer × (List Value × Option Contrast) :=
  match s.levels with
  | some dl => (s, (dl, s.contrast))
  | none =>
    let dl := sortLevels s.levelSet
    ({ s with levels := some dl }, (dl, s.contrast))

/-- `sniff` after the contrast/`Categorical`/box dispatch: the boolean-dtype
fast path (lines 185-187) replaces the accumulated level set by
`{True, False}` and reports confident-done before any shape check; any other
raw data is shape-fixed and scanned, and `sniff` reports confident-done
exactly when the accumulated set is now `{True, False}`. -/
def sniffRaw (na : Value → Bool) (s : Sniffer) (r : RawData) :
    Except PErr (Sniffer × Bool) :=
  match r with
  | RawData.boolArr _ _ =>
    Except.ok ({ s with levelSet := [Value.bool true, Value.bool false] }, true)
  | r1 =>
    match shapeFixR r1 with
    | Except.error e => Except.error e
    | Except.ok r2 =>
      match scanAll na s.levelSet (toValues r2) with
      | Except.error e => Except.error e
      | Except.ok s2 => Except.ok ({ s with levelSet := s2 }, tfSet s2)

/-- `CategoricalSniffer.sniff` (lines 167-205).  A box always exposes a
`contrast` attribute, so sniffing one overwrites the stored contrast (even
with `None`); a `pandas.Categorical` or a box with explicit levels sets
`_levels` directly and reports confident-done; a box without levels is
unwrapped; raw data goes through `sniffRaw`. -/
def sniff (na : Value → Bool) (s : Sniffer) (chunk : CatData) :
    Except PErr (Sniffer × Bool) :=
  let s1 :=
    match chunk with
    | CatData.box b => { s with contrast := b.contrast }
    | _ => s
  match chunk with
  | CatData.cat dl _ => Except.ok ({ s1 with levels := some dl }, true)
  | CatData.box b =>
    match b.levels with
    | some dl => Except.ok ({ s1 with levels := some dl }, true)
    | none => sniffRaw na s1 b.data
  | CatData.raw r => sniffRaw na s1 r

/-- Is the chunk a `pandas.Categorical`? -/
def isPreCategorized : CatData → Bool
  | CatData.cat _ _ => true
  | _ => false

/-- Is the chunk a box carrying explicit levels? -/
def isBoxWithLevels : CatData → Bool
  | CatData.box b => b.levels.isSome
  | _ => false

/-- Is the chunk homogeneously boolean storage (directly, or wrapped in a box
without explicit levels, which `sniff` unwraps before the dtype test)? -/
def isBoolStorage : CatData → Bool
  | CatData.raw (RawData.boolArr _ _) => true
  | CatData.box b =>
    match b.levels, b.data with
    | none, RawData.boolArr _ _ => true
    | _, _ => false
  | _ => false

/-- The everything-missing-is-kept NA policy used for concrete examples. -/
def naFalse : Value → Bool := fun _ => false

/-- The NA policy of `NAAction(NA_types=["None", "NaN"])` restricted to the
embedded fragment: `None` and NaN are missing. -/
def naNoneNaN : Value → Bool
  | Value.vnone => true
  | Value.nan => true
  | _ => false

/-- A freshly constructed sniffer (`__init__`, lines 152-158). -/
def sniffer0 : Sniffer := ⟨none, none, []⟩

theorem lookupFrom_getElem? (v : Value) :
    ∀ (L : List Value) (i : Nat), lookupFrom v L = some i → L[i]? = some v := by
  intro L
  induction L with
  | nil => intro i h; simp [lookupFrom] at h
  | cons l ls ih =>
    intro i h
    unfold lookupFrom at h
    split at h
    · rename_i j heq
      cases h
      simpa using ih j heq
    · rename_i heq
      by_cases hl : l = v
      · rw [if_pos hl] at h
        cases h
        simp [hl]
      · rw [if_neg hl] at h
        cases h

theorem lookupFrom_isSome (v : Value) :
    ∀ (L : List Value), v ∈ L → (lookupFrom v L).isSome = true := by
  intro L
  induction L with
  | nil => intro h; simp at h
  | cons l ls ih =>
    intro hmem
    unfold lookupFrom
    cases h2 : lookupFrom v ls with
    | some j => simp
    | none =>
      have hvl : v = l := by
        rcases List.mem_cons.mp hmem with h | h
        · exact h
        · have h3 := ih h
          rw [h2] at h3
          simp at h3
      simp [hvl]

theorem encodeOne_ok (levels : List Value) (na : Value → Bool) (v : Value) (c : Int)
    (h : encodeOne levels na v = Except.ok c) :
    (na v = true ∧ c = -1) ∨
    (na v = false ∧ hashable v = true ∧
      ∃ j : Nat, lookupFrom v levels = some j ∧ c = (j : Int)) := by
  cases hna : na v
  · cases hh : hashable v
    · simp [encodeOne, hna, hh] at h
    · simp only [encodeOne, lookupLevel, hna, hh, Bool.false_eq_true, if_false, if_true] at h
      cases hl : lookupFrom v levels with
      | none => rw [hl] at h; cases h
      | some j =>
        rw [hl] at h
        cases h
        exact Or.inr ⟨rfl, rfl, j, rfl, rfl⟩
  · simp [encodeOne, hna] at h
    exact Or.inl ⟨rfl, h.symm⟩

theorem encodeLoop_sound (levels : List Value) (na : Value → Bool) :
    ∀ (vs : List Value) (cs : List Int), encodeLoop levels na vs = Except.ok cs →
      cs.length = vs.length ∧
      ∀ (i : Nat) (v : Value), vs[i]? = some v →
        (na v = true ∧ cs[i]? = some (-1 : Int)) ∨
        (na v = false ∧ ∃ j : Nat, lookupFrom v levels = some j ∧ cs[i]? = some (j : Int)) := by
  intro vs
  induction vs with
  | nil =>
    intro cs h
    cases h
    exact ⟨rfl, by intro i v hv; simp at hv⟩
  | cons v vs ih =>
    intro cs h
    unfold encodeLoop at h
    split at h
    · cases h
    · rename_i c h1
      split at h
      · cases h
      · rename_i cs2 h2
        cases h
        obtain ⟨hlen, hidx⟩ := ih cs2 h2
        refine ⟨by simp [hlen], ?_⟩
        intro i w hw
        cases i with
        | zero =>
          simp only [List.getElem?_cons_zero, Option.some.injEq] at hw
          subst hw
          rcases encodeOne_ok levels na v c h1 with ⟨h3, h4⟩ | ⟨h3, _, j, h5, h6⟩
          · exact Or.inl ⟨h3, by simp [h4]⟩
          · exact Or.inr ⟨h3, j, h5, by simp [h6]⟩
        | succ i2 =>
          simp only [List.getElem?_cons_succ] at hw ⊢
          exact hidx i2 w hw

theorem encodeLoop_total (levels : List Value) (na : Value → Bool) :
    ∀ (vs : List Value), (∀ v ∈ vs, na v = false) → (∀ v ∈ vs, hashable v = true) →
      (∀ v ∈ vs, v ∈ levels) → ∃ cs, encodeLoop levels na vs = Except.ok cs := by
  intro vs
  induction vs with
  | nil => intro _ _ _; exact ⟨[], rfl⟩
  | cons v vs ih =>
    intro h1 h2 h3
    have hv1 : na v = false := h1 v (by simp)
    have hv2 : hashable v = true := h2 v (by simp)
    have hsome := lookupFrom_isSome v levels (h3 v (by simp))
    cases hl : lookupFrom v levels with
    | none => rw [hl] at hsome; cases hsome
    | some j =>
      obtain ⟨cs, hcs⟩ := ih (fun w hw => h1 w (by simp [hw]))
        (fun w hw => h2 w (by simp [hw])) (fun w hw => h3 w (by simp [hw]))
      refine ⟨(j : Int) :: cs, ?_⟩
      have he : encodeOne levels na v = Except.ok (j : Int) := by
        simp [encodeOne, lookupLevel, hv1, hv2, hl]
      unfold encodeLoop
      simp [he, hcs]

theorem getElem?_unique_of_nodup (L : List Value) (hn : L.Nodup) (j k : Nat) (v : Value)
    (hj : L[j]? = some v) (hk : L[k]? = some v) : j = k :=
  List.getElem?_inj (List.getElem?_eq_some_iff.mp hj).1 hn (hj.trans hk.symm)

theorem ctoi_lst (vs levels : List Value) (na : Value → Bool)
    (hh : levels.all hashable = true) :
    categorical_to_int (CatData.raw (RawData.lst vs)) levels na = encodeLoop levels na vs := by
  simp [categorical_to_int, encodeRaw, shapeFixR, toValues, hh]

theorem ctoi_lst_ok (vs levels : List Value) (na : Value → Bool) (cs : List Int)
    (h : categorical_to_int (CatData.raw (RawData.lst vs)) levels na = Except.ok cs) :
    encodeLoop levels na vs = Except.ok cs := by
  cases hh : levels.all hashable
  · rw [show categorical_to_int (CatData.raw (RawData.lst vs)) levels na
        = Except.error PErr.hashError by
      simp [categorical_to_int, encodeRaw, shapeFixR, hh]] at h
    cases h
  · rwa [ctoi_lst vs levels na hh] at h

/-- General-path round trip: for list-stored data whose elements are all
classified non-missing, occur in the levels, and are hashable (levels
hashable too), `categorical_to_int` succeeds and indexing the levels with
each emitted code recovers the corresponding input element.  This is the
behavior the round-trip property asks for; the boolean fast path breaks it
(see `claim_C1_bug`). -/
theorem encodeLst_roundtrip (vs levels : List Value) (na : Value → Bool)
    (hna : ∀ v ∈ vs, na v = false)
    (hmem : ∀ v ∈ vs, v ∈ levels)
    (hhashData : ∀ v ∈ vs, hashable v = true)
    (hhashLevels : ∀ l ∈ levels, hashable l = true) :
    ∃ cs, categorical_to_int (CatData.raw (RawData.lst vs)) levels na = Except.ok cs ∧
      cs.length = vs.length ∧
      ∀ (i : Nat) (v : Value), vs[i]? = some v →
        ∃ j : Nat, cs[i]? = some (j : Int) ∧ levels[j]? = some v := by
  have hall : levels.all hashable = true := List.all_eq_true.mpr hhashLevels
  obtain ⟨cs, hcs⟩ := encodeLoop_total levels na vs hna hhashData hmem
  refine ⟨cs, by rw [ctoi_lst vs levels na hall]; exact hcs,
    (encodeLoop_sound levels na vs cs hcs).1, ?_⟩
  intro i v hv
  have hmemv : v ∈ vs := by
    obtain ⟨hlt, heq⟩ := List.getElem?_eq_some_iff.mp hv
    exact heq ▸ List.getElem_mem hlt
  rcases (encodeLoop_sound levels na vs cs hcs).2 i v hv with ⟨hT, _⟩ | ⟨_, j, hj, hcj⟩
  · rw [hna v hmemv] at hT
    cases hT
  · exact ⟨j, hcj, lookupFrom_getElem? v levels j hj⟩

/-- Claim C1 (code-bug evidence): the input `np.asarray([True])` with levels
`(True,)` satisfies every hypothesis of the round-trip claim — the single
element is classified non-missing by the default policy, is hashable, and
occurs in the levels — yet `categorical_to_int` fails with the uncaught
Python `KeyError` raised by the fast-path guard `level_to_int[False]` (line
315) instead of succeeding.  On the equivalent list-stored input the general
path — which the spec prescribes whenever the levels are not exactly
`(False, True)` — succeeds and round-trips exactly as the claim states. -/
theorem claim_C1_bug :
    (∀ v ∈ [Value.bool true], naFalse v = false) ∧
    (∀ v ∈ [Value.bool true], hashable v = true) ∧
    (∀ v ∈ ([Value.bool true] : List Value), v ∈ ([Value.bool true] : List Value)) ∧
    categorical_to_int (CatData.raw (RawData.boolArr 0 [true])) [Value.bool true] naFalse
      = Except.error PErr.keyError ∧
    categorical_to_int (CatData.raw (RawData.lst [Value.bool true])) [Value.bool true] naFalse
      = Except.ok [0] ∧
    ([Value.bool true] : List Value)[0]? = some (Value.bool true) :=
  ⟨by decide, by decide, by decide, rfl, rfl, rfl⟩

/-- Claim C2: on the general encoding path, each missing element is encoded
as `-1` and each non-missing element as the zero-based position of its value
in the (duplicate-free) finalized levels; in particular encoding
`["b", None, NaN, "a"]` against `("a", "b")` with `None`/NaN missing yields
`[1, -1, -1, 0]`. -/
theorem claim_C2 :
    (∀ (vs levels : List Value) (na : Value → Bool) (cs : List Int),
        levels.Nodup →
        categorical_to_int (CatData.raw (RawData.lst vs)) levels na = Except.ok cs →
        ∀ (i : Nat) (v : Value), vs[i]? = some v →
          (na v = true → cs[i]? = some (-1 : Int)) ∧
          (na v = false → ∃ j : Nat, cs[i]? = some (j : Int) ∧ levels[j]? = some v ∧
            ∀ k : Nat, levels[k]? = some v → k = j)) ∧
    categorical_to_int
        (CatData.raw (RawData.lst [Value.str "b", Value.vnone, Value.nan, Value.str "a"]))
        [Value.str "a", Value.str "b"] naNoneNaN = Except.ok [1, -1, -1, 0] := by
  constructor
  · intro vs levels na cs hnd h i v hv
    have hloop := ctoi_lst_ok vs levels na cs h
    rcases (encodeLoop_sound levels na vs cs hloop).2 i v hv with ⟨hT, hc⟩ | ⟨hF, j, hj, hcj⟩
    · refine ⟨fun _ => hc, fun hF => ?_⟩
      rw [hT] at hF
      cases hF
    · refine ⟨fun hT => ?_, fun _ => ?_⟩
      · rw [hF] at hT
        cases hT
      · have hgj := lookupFrom_getElem? v levels j hj
        exact ⟨j, hcj, hgj, fun k hk => getElem?_unique_of_nodup levels hnd k j v hk hgj⟩
  · rfl

/-- Claim C2 witness: the general-path characterization applied to the first
element of the claim's own NA scenario. -/
theorem claim_C2_witness :
    (([Value.str "a", Value.str "b"] : List Value).Nodup) ∧
    ((naNoneNaN (Value.str "b") = true → ([1, -1, -1, 0] : List Int)[0]? = some (-1 : Int)) ∧
      (naNoneNaN (Value.str "b") = false →
        ∃ j : Nat, ([1, -1, -1, 0] : List Int)[0]? = some (j : Int) ∧
          ([Value.str "a", Value.str "b"] : List Value)[j]? = some (Value.str "b") ∧
          ∀ k : Nat, ([Value.str "a", Value.str "b"] : List Value)[k]? = some (Value.str "b") →
            k = j)) :=
  ⟨by decide,
    claim_C2.1 [Value.str "b", Value.vnone, Value.nan, Value.str "a"]
      [Value.str "a", Value.str "b"] naNoneNaN [1, -1, -1, 0] (by decide) rfl 0
      (Value.str "b") rfl⟩

/-- Claim C3 (code-bug evidence): a non-missing value absent from the levels
raises `UnknownLevel` on the general path, and an unhashable data element or
level entry raises `HashError`; but for a homogeneous boolean array whose
values are absent from the levels, the fast-path guard `level_to_int[False]`
(line 315) raises an uncaught Python `KeyError` instead of the `UnknownLevel`
`PatsyError` — contrary to the claim and to the library's own convention of
raising `PatsyError` with an origin for every failure. -/
theorem claim_C3_bug :
    categorical_to_int (CatData.raw (RawData.boolArr 0 [true]))
        [Value.str "a", Value.str "b"] naFalse = Except.error PErr.keyError ∧
    categorical_to_int (CatData.raw (RawData.lst [Value.str "q"]))
        [Value.str "a", Value.str "b"] naFalse
      = Except.error (PErr.unknownLevel (Value.str "q")
          [some (Value.str "a"), some (Value.str "b")]) ∧
    categorical_to_int (CatData.raw (RawData.lst [Value.dict])) [Value.str "a"] naFalse
      = Except.error PErr.hashError ∧
    categorical_to_int (CatData.raw (RawData.lst [Value.str "a"]))
        [Value.str "a", Value.dict] naFalse = Except.error PErr.hashError :=
  ⟨rfl, rfl, rfl, rfl⟩

/-- Claim C4 counterexample: with `levels = (False, True)` and an NA policy
classifying `True` as missing, the fast path emits code `1` for `True` while
the general per-element path emits `-1`, so the two paths are not
element-for-element identical under every NA policy. -/
theorem claim_C4_cx :
    categorical_to_int (CatData.raw (RawData.boolArr 0 [true]))
        [Value.bool false, Value.bool true] (fun v => decide (v = Value.bool true))
      = Except.ok [1] ∧
    encodeLoop [Value.bool false, Value.bool true] (fun v => decide (v = Value.bool true))
        [Value.bool true] = Except.ok [-1] ∧
    ([1] : List Int) ≠ [-1] :=
  ⟨rfl, rfl, by decide⟩

/-- Claim C4 (amended): for every homogeneously-boolean-stored input, levels
exactly `(False, True)`, and every NA policy that classifies neither boolean
value as missing, the fast-path result of `categorical_to_int` equals the
result the general per-element path produces on the same values. -/
theorem claim_C4 (bs : List Bool) (na : Value → Bool)
    (hf : na (Value.bool false) = false) (ht : na (Value.bool true) = false) :
    categorical_to_int (CatData.raw (RawData.boolArr 0 bs))
        [Value.bool false, Value.bool true] na
      = Except.ok (bs.map fun b => if b then (1 : Int) else 0) ∧
    encodeLoop [Value.bool false, Value.bool true] na (bs.map Value.bool)
      = Except.ok (bs.map fun b => if b then (1 : Int) else 0) := by
  refine ⟨rfl, ?_⟩
  induction bs with
  | nil => rfl
  | cons b bs2 ih =>
    have he : encodeOne [Value.bool false, Value.bool true] na (Value.bool b)
        = Except.ok (if b then (1 : Int) else 0) := by
      cases b
      · simp [encodeOne, lookupLevel, lookupFrom, hashable, hf]
      · simp [encodeOne, lookupLevel, lookupFrom, hashable, ht]
    simp only [List.map_cons]
    unfold encodeLoop
    simp [he, ih]

/-- Claim C4 witness: the amended equivalence at `data = [True, False]` with
the keep-everything NA policy. -/
theorem claim_C4_witness :
    naFalse (Value.bool false) = false ∧ naFalse (Value.bool true) = false ∧
    (categorical_to_int (CatData.raw (RawData.boolArr 0 [true, false]))
        [Value.bool false, Value.bool true] naFalse
      = Except.ok ([true, false].map fun b => if b then (1 : Int) else 0) ∧
    encodeLoop [Value.bool false, Value.bool true] naFalse ([true, false].map Value.bool)
      = Except.ok ([true, false].map fun b => if b then (1 : Int) else 0)) :=
  ⟨rfl, rfl, claim_C4 [true, false] naFalse rfl rfl⟩

/-- Claim C5: a `pandas.Categorical`, or a box with explicit levels, whose
level sequence differs from the expected levels in value or order fails with
`LevelMismatch` naming both sequences; on an exact match a
`pandas.Categorical`'s own labels are returned unchanged for every NA policy
and every stored label sequence (no rescan of values); and declared levels
`("a", "b")` against expected `("b", "a")` fail despite equal value sets. -/
theorem claim_C5 :
    (∀ (dl : List Value) (labs : List Int) (levels : List Value) (na : Value → Bool),
        dl ≠ levels →
        categorical_to_int (CatData.cat dl labs) levels na
          = Except.error (PErr.levelMismatch levels dl)) ∧
    (∀ (dl : List Value) (labs : List Int) (na : Value → Bool),
        categorical_to_int (CatData.cat dl labs) dl na = Except.ok labs) ∧
    (∀ (dl : List Value) (r : RawData) (co : Option Contrast) (levels : List Value)
        (na : Value → Bool), dl ≠ levels →
        categorical_to_int (CatData.box ⟨r, co, some dl⟩) levels na
          = Except.error (PErr.levelMismatch levels dl)) ∧
    categorical_to_int (CatData.cat [Value.str "a", Value.str "b"] [0, 1])
        [Value.str "b", Value.str "a"] naFalse
      = Except.error (PErr.levelMismatch [Value.str "b", Value.str "a"]
          [Value.str "a", Value.str "b"]) := by
  refine ⟨?_, ?_, ?_, rfl⟩
  · intro dl labs levels na hne
    simp [categorical_to_int, hne]
  · intro dl labs na
    simp [categorical_to_int]
  · intro dl r co levels na hne
    simp [categorical_to_int, hne]

/-- Claim C5 witness: the mismatch branch at concrete singleton levels. -/
theorem claim_C5_witness :
    (([Value.str "a"] : List Value) ≠ [Value.str "b"]) ∧
    categorical_to_int (CatData.cat [Value.str "a"] [0]) [Value.str "b"] naFalse
      = Except.error (PErr.levelMismatch [Value.str "b"] [Value.str "a"]) :=
  ⟨by decide, claim_C5.1 [Value.str "a"] [0] [Value.str "b"] naFalse (by decide)⟩


theorem sniffRaw_cases (na : Value → Bool) (s s2 : Sniffer) (r : RawData) (done : Bool)
    (h : sniffRaw na s r = Except.ok (s2, done)) :
    s2.contrast = s.contrast ∧ s2.levels = s.levels ∧
    ((∃ extra bs, r = RawData.boolArr extra bs) ∧
        s2.levelSet = [Value.bool true, Value.bool false] ∧ done = true ∨
      (∀ extra bs, r ≠ RawData.boolArr extra bs) ∧ done = tfSet s2.levelSet) := by
  cases r with
  | boolArr extra bs =>
    cases h
    exact ⟨rfl, rfl, Or.inl ⟨⟨extra, bs, rfl⟩, rfl, rfl⟩⟩
  | arr extra vs =>
    simp only [sniffRaw] at h
    split at h
    · cases h
    · split at h
      · cases h
      · cases h
        exact ⟨rfl, rfl, Or.inr ⟨by simp, rfl⟩⟩
  | lst vs =>
    simp only [sniffRaw] at h
    split at h
    · cases h
    · split at h
      · cases h
      · cases h
        exact ⟨rfl, rfl, Or.inr ⟨by simp, rfl⟩⟩
  | scalar v =>
    simp only [sniffRaw] at h
    split at h
    · cases h
    · split at h
      · cases h
      · cases h
        exact ⟨rfl, rfl, Or.inr ⟨by simp, rfl⟩⟩

/-- Claim C6: a successful `sniff` reports confident-done exactly when the
chunk is a `pandas.Categorical`, a box with explicit levels, homogeneously
boolean storage, or the accumulated level set after scanning is exactly
`{False, True}`; in the boolean-storage case the level set becomes exactly
`{False, True}`; in all remaining cases `sniff` returns `false`. -/
theorem claim_C6 (na : Value → Bool) (s s2 : Sniffer) (chunk : CatData) (done : Bool)
    (h : sniff na s chunk = Except.ok (s2, done)) :
    (done = true ↔ (isPreCategorized chunk = true ∨ isBoxWithLevels chunk = true ∨
      isBoolStorage chunk = true ∨ tfSet s2.levelSet = true)) ∧
    (isBoolStorage chunk = true →
      ∀ v : Value, v ∈ s2.levelSet ↔ (v = Value.bool true ∨ v = Value.bool false)) := by
  cases chunk with
  | cat dl labs =>
    cases h
    exact ⟨by simp [isPreCategorized], by simp [isBoolStorage]⟩
  | box b =>
    cases hbl : b.levels with
    | some dl =>
      have hs : sniff na s (CatData.box b)
          = Except.ok ({ s with contrast := b.contrast, levels := some dl }, true) := by
        simp [sniff, hbl]
      rw [hs] at h
      cases h
      exact ⟨by simp [isBoxWithLevels, hbl], by simp [isBoolStorage, hbl]⟩
    | none =>
      have hs : sniff na s (CatData.box b)
          = sniffRaw na { s with contrast := b.contrast } b.data := by
        simp [sniff, hbl]
      rw [hs] at h
      obtain ⟨_, _, hcase⟩ := sniffRaw_cases na _ s2 b.data done h
      rcases hcase with ⟨⟨extra, bs, hbd⟩, hset, hdone⟩ | ⟨hnb, hdone⟩
      · subst hdone
        refine ⟨by simp [isBoolStorage, hbl, hbd], ?_⟩
        intro _ v
        rw [hset]
        simp
      · subst hdone
        have h3 : isBoolStorage (CatData.box b) = false := by
          cases hbd : b.data with
          | boolArr extra bs => exact absurd hbd (hnb extra bs)
          | arr extra vs => simp [isBoolStorage, hbl, hbd]
          | lst vs => simp [isBoolStorage, hbl, hbd]
          | scalar v => simp [isBoolStorage, hbl, hbd]
        exact ⟨by simp [isPreCategorized, isBoxWithLevels, hbl, h3], by simp [h3]⟩
  | raw r =>
    have hs2 : sniffRaw na s r = Except.ok (s2, done) := h
    obtain ⟨_, _, hcase⟩ := sniffRaw_cases na s s2 r done hs2
    rcases hcase with ⟨⟨extra, bs, hbd⟩, hset, hdone⟩ | ⟨hnb, hdone⟩
    · subst hdone
      refine ⟨by simp [isBoolStorage, hbd], ?_⟩
      intro _ v
      rw [hset]
      simp
    · subst hdone
      have h3 : isBoolStorage (CatData.raw r) = false := by
        cases hbd : r with
        | boolArr extra bs => exact absurd hbd (hnb extra bs)
        | arr extra vs => simp [isBoolStorage]
        | lst vs => simp [isBoolStorage]
        | scalar v => simp [isBoolStorage]
      exact ⟨by simp [isPreCategorized, isBoxWithLevels, h3], by simp [h3]⟩

/-- Claim C6 witness: sniffing a plain one-string chunk succeeds, is not
confident-done, and the characterization holds at that input. -/
theorem claim_C6_witness :
    sniff naFalse sniffer0 (CatData.raw (RawData.lst [Value.str "x"]))
      = Except.ok (⟨none, none, [Value.str "x"]⟩, false) ∧
    ((false = true) ↔ (isPreCategorized (CatData.raw (RawData.lst [Value.str "x"])) = true ∨
      isBoxWithLevels (CatData.raw (RawData.lst [Value.str "x"])) = true ∨
      isBoolStorage (CatData.raw (RawData.lst [Value.str "x"])) = true ∨
      tfSet (Sniffer.mk none none [Value.str "x"]).levelSet = true)) ∧
    (isBoolStorage (CatData.raw (RawData.lst [Value.str "x"])) = true →
      ∀ v : Value, v ∈ (Sniffer.mk none none [Value.str "x"]).levelSet ↔
        (v = Value.bool true ∨ v = Value.bool false)) :=
  ⟨rfl,
    (claim_C6 naFalse sniffer0 ⟨none, none, [Value.str "x"]⟩
      (CatData.raw (RawData.lst [Value.str "x"])) false rfl).1,
    (claim_C6 naFalse sniffer0 ⟨none, none, [Value.str "x"]⟩
      (CatData.raw (RawData.lst [Value.str "x"])) false rfl).2⟩

/-- Claim C7 counterexample: after `levels_contrast` has been called, a
further `sniff` of a box carrying explicit levels and a contrast overwrites
both, so a subsequent `levels_contrast` returns a different pair — the
result is not frozen against such chunks. -/
theorem claim_C7_cx :
    sniff naFalse sniffer0 (CatData.raw (RawData.lst [Value.str "a"]))
      = Except.ok (⟨none, none, [Value.str "a"]⟩, false) ∧
    levelsContrast ⟨none, none, [Value.str "a"]⟩
      = (⟨none, some [Value.str "a"], [Value.str "a"]⟩, ([Value.str "a"], none)) ∧
    sniff naFalse ⟨none, some [Value.str "a"], [Value.str "a"]⟩
        (CatData.box ⟨RawData.lst [], some "Z", some [Value.str "b"]⟩)
      = Except.ok (⟨some "Z", some [Value.str "b"], [Value.str "a"]⟩, true) ∧
    levelsContrast ⟨some "Z", some [Value.str "b"], [Value.str "a"]⟩
      = (⟨some "Z", some [Value.str "b"], [Value.str "a"]⟩, ([Value.str "b"], some "Z")) ∧
    (([Value.str "b"], some "Z") : List Value × Option Contrast) ≠ ([Value.str "a"], none) :=
  ⟨rfl, rfl, rfl, rfl, by decide⟩

/-- Claim C7 (amended): once `_levels` is set (as `levels_contrast` does on
its first call), `levels_contrast` is memoized — it leaves the sniffer
unchanged and keeps returning the same pair — and a further `sniff` of a
plain chunk (one that is neither a `pandas.Categorical` nor a box, hence
carries no contrast attribute and no authoritative levels) leaves the value
returned by a subsequent `levels_contrast` unchanged; only a further
`pandas.Categorical` or box chunk can overwrite the frozen levels or the
stored contrast. -/
theorem claim_C7 (s : Sniffer) (dl : List Value) (h : s.levels = some dl) :
    (levelsContrast s).2 = (dl, s.contrast) ∧ (levelsContrast s).1 = s ∧
    (∀ (na : Value → Bool) (r : RawData) (s2 : Sniffer) (done : Bool),
      sniff na s (CatData.raw r) = Except.ok (s2, done) →
      (levelsContrast s2).2 = (dl, s.contrast)) := by
  have hval : levelsContrast s = (s, (dl, s.contrast)) := by
    simp [levelsContrast, h]
  refine ⟨by rw [hval], by rw [hval], ?_⟩
  intro na r s2 done hs
  have hs2 : sniffRaw na s r = Except.ok (s2, done) := hs
  obtain ⟨hc, hl, _⟩ := sniffRaw_cases na s s2 r done hs2
  rw [h] at hl
  simp [levelsContrast, hl, hc]

/-- Claim C7 witness: the amended freezing property at a concrete finalized
sniffer. -/
theorem claim_C7_witness :
    ((⟨none, some [Value.str "a"], []⟩ : Sniffer).levels = some [Value.str "a"]) ∧
    ((levelsContrast ⟨none, some [Value.str "a"], []⟩).2
        = ([Value.str "a"], (⟨none, some [Value.str "a"], []⟩ : Sniffer).contrast) ∧
      (levelsContrast ⟨none, some [Value.str "a"], []⟩).1
        = (⟨none, some [Value.str "a"], []⟩ : Sniffer) ∧
      (∀ (na : Value → Bool) (r : RawData) (s2 : Sniffer) (done : Bool),
        sniff na ⟨none, some [Value.str "a"], []⟩ (CatData.raw r) = Except.ok (s2, done) →
        (levelsContrast s2).2
          = ([Value.str "a"], (⟨none, some [Value.str "a"], []⟩ : Sniffer).contrast))) :=
  ⟨rfl, claim_C7 ⟨none, some [Value.str "a"], []⟩ [Value.str "a"] rfl⟩

/-- Claim C8 counterexample: `sniff` on a rank-2 homogeneous boolean array
(`extra = 1`, so `ndim = 2`) does not fail with `InvalidShape`: the boolean
fast path runs before the shape check and returns confident-done. -/
theorem claim_C8_cx :
    sniff naFalse sniffer0 (CatData.raw (RawData.boolArr 1 [true, false]))
      = Except.ok (⟨none, none, [Value.bool true, Value.bool false]⟩, true) ∧
    ∀ e : PErr,
      (Except.ok ((⟨none, none, [Value.bool true, Value.bool false]⟩ : Sniffer), true)
        : Except PErr (Sniffer × Bool)) ≠ Except.error e :=
  ⟨rfl, fun _ h => Except.noConfusion h⟩

/-- Claim C8 (amended): `categorical_to_int` fails with `InvalidShape` on
every input of rank greater than one (boolean or not); `sniff` fails with
`InvalidShape` on rank-greater-than-one non-boolean arrays, but on
homogeneously boolean storage of any rank it short-circuits before the shape
check; both normalize a bare scalar to a length-one sequence (they treat
`scalar v` exactly like `[v]`); and encoding the bare scalar `"a"` against
levels `("a", "b")` yields `[0]`. -/
theorem claim_C8 :
    (∀ (extra : Nat) (vs levels : List Value) (na : Value → Bool), 0 < extra →
        categorical_to_int (CatData.raw (RawData.arr extra vs)) levels na
          = Except.error PErr.invalidShape) ∧
    (∀ (extra : Nat) (bs : List Bool) (levels : List Value) (na : Value → Bool), 0 < extra →
        categorical_to_int (CatData.raw (RawData.boolArr extra bs)) levels na
          = Except.error PErr.invalidShape) ∧
    (∀ (na : Value → Bool) (s : Sniffer) (extra : Nat) (vs : List Value), 0 < extra →
        sniff na s (CatData.raw (RawData.arr extra vs)) = Except.error PErr.invalidShape) ∧
    (∀ (na : Value → Bool) (s : Sniffer) (extra : Nat) (bs : List Bool),
        sniff na s (CatData.raw (RawData.boolArr extra bs))
          = Except.ok ({ s with levelSet := [Value.bool true, Value.bool false] }, true)) ∧
    (∀ (na : Value → Bool) (s : Sniffer) (v : Value),
        sniff na s (CatData.raw (RawData.scalar v))
          = sniff na s (CatData.raw (RawData.lst [v]))) ∧
    (∀ (v : Value) (levels : List Value) (na : Value → Bool),
        categorical_to_int (CatData.raw (RawData.scalar v)) levels na
          = categorical_to_int (CatData.raw (RawData.lst [v])) levels na) ∧
    categorical_to_int (CatData.raw (RawData.scalar (Value.str "a")))
        [Value.str "a", Value.str "b"] naFalse = Except.ok [0] := by
  refine ⟨?_, ?_, ?_, fun na s extra bs => rfl, fun na s v => rfl,
    fun v levels na => rfl, rfl⟩
  · intro extra vs levels na hx
    simp [categorical_to_int, encodeRaw, shapeFixR, hx]
  · intro extra bs levels na hx
    simp [categorical_to_int, encodeRaw, shapeFixR, hx]
  · intro na s extra vs hx
    simp [sniff, sniffRaw, shapeFixR, hx]

/-- Claim C8 witness: the rank-2 rejection of the encoder at a concrete
two-dimensional array. -/
theorem claim_C8_witness :
    (0 < 1) ∧
    categorical_to_int (CatData.raw (RawData.arr 1 [Value.str "a"])) [Value.str "a"] naFalse
      = Except.error PErr.invalidShape :=
  ⟨by decide, claim_C8.1 1 [Value.str "a"] [Value.str "a"] naFalse (by decide)⟩

/-- Claim C9: `C` unwraps an already-boxed argument, keeps each
caller-supplied non-null field and otherwise inherits the inner box's field
(independently for contrast and levels), is idempotent when re-boxing with no
overrides, and a single override leaves the other field equal to the inner
box's value. -/
theorem claim_C9 :
    (∀ (x : Contrast) (y : Option Contrast), pick (some x) y = some x) ∧
    (∀ y : Option Contrast, pick none y = y) ∧
    (∀ (b : BoxData) (co : Option Contrast) (lo : Option (List Value)),
        (C (Boxable.box b) co lo).data = b.data ∧
        (C (Boxable.box b) co lo).contrast = pick co b.contrast ∧
        (C (Boxable.box b) co lo).levels = pick lo b.levels) ∧
    (∀ b : BoxData, C (Boxable.box b) none none = b) ∧
    (∀ (b : BoxData) (c : Contrast),
        C (Boxable.box b) (some c) none = ⟨b.data, some c, b.levels⟩) ∧
    (∀ (b : BoxData) (dl : List Value),
        C (Boxable.box b) none (some dl) = ⟨b.data, b.contrast, some dl⟩) :=
  ⟨fun _ _ => rfl, fun _ => rfl, fun _ _ _ => ⟨rfl, rfl, rfl⟩,
    fun _ => rfl, fun _ _ => rfl, fun _ _ => rfl⟩

/-- Claim C10: for a rank-1 homogeneous boolean array encoded against
(hashable) levels in which `False` maps to index 0 and `True` to index 1, the
output of `categorical_to_int` is a pure function of the raw boolean values,
identical under every NA policy (the policy is never consulted), and every
emitted code is 0 or 1 — never `-1`. -/
theorem claim_C10 (bs : List Bool) (levels : List Value) (na1 na2 : Value → Bool)
    (hh : levels.all hashable = true)
    (hf : lookupLevel levels (Value.bool false) = some 0)
    (ht : lookupLevel levels (Value.bool true) = some 1) :
    categorical_to_int (CatData.raw (RawData.boolArr 0 bs)) levels na1
      = Except.ok (bs.map fun b => if b then (1 : Int) else 0) ∧
    categorical_to_int (CatData.raw (RawData.boolArr 0 bs)) levels na1
      = categorical_to_int (CatData.raw (RawData.boolArr 0 bs)) levels na2 ∧
    ∀ c ∈ (bs.map fun b => if b then (1 : Int) else 0), (c = 0 ∨ c = 1) ∧ c ≠ -1 := by
  have key : ∀ na : Value → Bool,
      categorical_to_int (CatData.raw (RawData.boolArr 0 bs)) levels na
        = Except.ok (bs.map fun b => if b then (1 : Int) else 0) := by
    intro na
    simp [categorical_to_int, encodeRaw, shapeFixR, hh, hf, ht]
  refine ⟨key na1, (key na1).trans (key na2).symm, ?_⟩
  intro c hc
  obtain ⟨b, _, hb⟩ := List.mem_map.mp hc
  cases b with
  | false => rw [← hb]; exact ⟨Or.inl rfl, by decide⟩
  | true => rw [← hb]; exact ⟨Or.inr rfl, by decide⟩

/-- Claim C10 witness: the policy-independence at `data = [True]`,
`levels = (False, True)`, comparing the keep-everything policy with the
`None`/NaN-missing policy. -/
theorem claim_C10_witness :
    (([Value.bool false, Value.bool true] : List Value).all hashable = true) ∧
    lookupLevel [Value.bool false, Value.bool true] (Value.bool false) = some 0 ∧
    lookupLevel [Value.bool false, Value.bool true] (Value.bool true) = some 1 ∧
    (categorical_to_int (CatData.raw (RawData.boolArr 0 [true]))
        [Value.bool false, Value.bool true] naFalse
      = Except.ok ([true].map fun b => if b then (1 : Int) else 0) ∧
    categorical_to_int (CatData.raw (RawData.boolArr 0 [true]))
        [Value.bool false, Value.bool true] naFalse
      = categorical_to_int (CatData.raw (RawData.boolArr 0 [true]))
        [Value.bool false, Value.bool true] naNoneNaN ∧
    ∀ c ∈ ([true].map fun b => if b then (1 : Int) else 0), (c = 0 ∨ c = 1) ∧ c ≠ -1) :=
  ⟨rfl, rfl, rfl,
    claim_C10 [true] [Value.bool false, Value.bool true] naFalse naNoneNaN rfl rfl rfl⟩
